import Mathlib

/-! Shallow embedding of the documentation-tools scripts `sphinx/add_targets.py`
and `sphinx/convert_links.py`.  A document is a list of lines, a line being a
list of characters (as produced by `readlines`, every line but possibly the
last ends in a newline).  The Python regular expressions used by the scripts
are embedded as explicit list functions; `os.path.abspath`, `os.path.normpath`
and the filesystem are taken as parameters. -/

/-- A line (or any piece) of text, as a list of characters. -/
abbrev Line := List Char

/-- Characters of the Python regex class `\s` (its ASCII part), which is also
the set stripped by `str.strip()`. -/
def isWsChar (c : Char) : Bool :=
  c = ' ' || c = '\t' || c = '\n' || c = '\r' || c = Char.ofNat 11 || c = Char.ofNat 12

/-- Python `str.strip()`: remove leading and trailing whitespace. -/
def pyStrip (l : Line) : Line :=
  ((l.dropWhile isWsChar).reverse.dropWhile isWsChar).reverse

/-- Characters of the Python regex class `[\s_]`, used by both normalization
routines. -/
def isWsUnderscore (c : Char) : Bool := isWsChar c || c = '_'

/-- Characters of the Python regex class `[a-z0-9-]`: the characters kept by
the `re.sub(r'[^a-z0-9-]', '', ...)` deletion in both normalization
routines. -/
def isAllowedChar (c : Char) : Bool :=
  ('a' ≤ c && c ≤ 'z') || ('0' ≤ c && c ≤ '9') || c = '-'

/-- Embedding of `re.match(r'^(#+)\s+(.*)', line)` (the `heading_pattern` of
`add_targets.py` and the `any_heading_pattern` of `convert_links.py`): the
count of `#` markers and group 2.  Group 2 is the text after the maximal
leading whitespace run that follows the markers, and cannot cross a newline.
Returns `none` when the line is not a heading. -/
def matchHeading (l : Line) : Option (Nat × Line) :=
  let hs := l.takeWhile (fun c => c = '#')
  if hs = [] then none
  else
    match l.drop hs.length with
    | [] => none
    | c :: rest =>
      if isWsChar c then
        some (hs.length, ((c :: rest).dropWhile isWsChar).takeWhile (fun x => x ≠ '\n'))
      else none

/-- The last element of `xs`, or `d` when `xs` is empty: the value that a
"previous line" variable holds after scanning `xs` starting from `d`. -/
def lastD (d : Line) : List Line → Line
  | [] => d
  | x :: xs => lastD x xs

namespace AddTargets

/-- Step of `generate_target_label` (`add_targets.py` line 18):
`re.sub(r'[\s_]+', '-', s)` — replace each maximal run of whitespace or
underscore characters by a single hyphen.  The boolean records whether the
previous character belonged to such a run. -/
def subWsRuns : Bool → Line → Line
  | _, [] => []
  | inRun, c :: rest =>
    if isWsUnderscore c then
      if inRun then subWsRuns true rest else '-' :: subWsRuns true rest
    else c :: subWsRuns false rest

/-- Step of `generate_target_label` (`add_targets.py` line 19):
`re.sub(r'[^a-z0-9-]', '', s)`. -/
def removeDisallowed (l : Line) : Line := l.filter isAllowedChar

/-- Step of `generate_target_label` (`add_targets.py` line 20):
`str.strip('-')`. -/
def stripHyphens (l : Line) : Line :=
  ((l.dropWhile (fun c => c = '-')).reverse.dropWhile (fun c => c = '-')).reverse

/-- The heading-normalization pipeline inside `generate_target_label`
(`add_targets.py` lines 17-20): lower-case, collapse `[\s_]+` runs to `-`,
delete `[^a-z0-9-]`, strip `-` from both ends. -/
def processed_heading (text : Line) : Line :=
  stripHyphens (removeDisallowed (subWsRuns false (text.map Char.toLower)))

/-- `generate_target_label` (`add_targets.py` lines 5-21): the text of the
label line `(ref-<stem>-<processed heading>)=`, without a trailing newline. -/
def generate_target_label (stem text : Line) : Line :=
  ('(' :: ('r' :: 'e' :: 'f' :: '-' :: (stem ++ '-' :: processed_heading text))) ++ [')', '=']

/-- `existing_target_pattern` (`add_targets.py` line 49): does the line match
`^\([^)]+\)=$`?  The `$` of the Python regex also accepts one final newline,
although the script only applies the pattern to stripped strings. -/
def isLabelLine (s : Line) : Bool :=
  match s with
  | '(' :: rest =>
    !(rest.takeWhile (fun c => c ≠ ')')).isEmpty &&
      (rest.drop (rest.takeWhile (fun c => c ≠ ')')).length == [')', '='] ||
        rest.drop (rest.takeWhile (fun c => c ≠ ')')).length == [')', '=', '\n'])
  | _ => false

/-- The line loop of `process_markdown_file` (`add_targets.py` lines 52-76).
`prev` is the previous input line (`previous_line`, initially the empty
string).  Returns the output lines and the `modified` flag. -/
def go (stem : Line) : Line → List Line → List Line × Bool
  | _, [] => ([], false)
  | prev, l :: rest =>
    match matchHeading l with
    | none =>
      let r := go stem l rest
      (l :: r.1, r.2)
    | some m =>
      if isLabelLine (pyStrip prev) then
        let r := go stem l rest
        (l :: r.1, r.2)
      else
        let r := go stem l rest
        ((generate_target_label stem (pyStrip m.2) ++ ['\n']) :: l :: r.1, true)

/-- The pure core of `process_markdown_file` (`add_targets.py` lines 42-87):
process all lines with initial `previous_line = ""`; the file is rewritten
with the first component exactly when the second component is `true`. -/
def annotate (stem : Line) (lines : List Line) : List Line × Bool :=
  go stem [] lines

end AddTargets

namespace ConvertLinks

/-- Step of `normalize_heading_to_anchor` (`convert_links.py` line 20):
`re.sub(r'[\s_]+', '-', s)`. -/
def subWsRuns : Bool → Line → Line
  | _, [] => []
  | inRun, c :: rest =>
    if isWsUnderscore c then
      if inRun then subWsRuns true rest else '-' :: subWsRuns true rest
    else c :: subWsRuns false rest

/-- Step of `normalize_heading_to_anchor` (`convert_links.py` line 22):
`re.sub(r'[^a-z0-9-]', '', s)`. -/
def removeDisallowed (l : Line) : Line := l.filter isAllowedChar

/-- Step of `normalize_heading_to_anchor` (`convert_links.py` line 24):
`str.strip('-')`. -/
def stripHyphens (l : Line) : Line :=
  ((l.dropWhile (fun c => c = '-')).reverse.dropWhile (fun c => c = '-')).reverse

/-- `normalize_heading_to_anchor` (`convert_links.py` lines 6-24), the
resolver's own copy of the normalization pipeline. -/
def normalize_heading_to_anchor (text : Line) : Line :=
  stripHyphens (removeDisallowed (subWsRuns false (text.map Char.toLower)))

/-- `h1_heading_pattern` = `re.match(r'^#\s+(.*)', line)` (`convert_links.py`
line 62): group 1 when the line is a level-one heading — exactly one `#`
marker, because a second `#` cannot match `\s`. -/
def matchH1 (l : Line) : Option Line :=
  match l with
  | '#' :: c :: rest =>
    if isWsChar c then
      some (((c :: rest).dropWhile isWsChar).takeWhile (fun x => x ≠ '\n'))
    else none
  | _ => none

/-- `target_pattern` = `^\((ref-[^)]+)\)=$` (`convert_links.py` line 61)
applied to a (stripped) line: group 1, the label identifier, which the
pattern requires to begin with `ref-`.  Since the four characters of `ref-`
are themselves not `)`, the whole group is exactly the maximal run of
non-`)` characters after the open paren, required to begin with `ref-` and to
extend at least one character past it.  The `$` also accepts one final
newline, although the script only applies the pattern to stripped strings. -/
def refTargetId (s : Line) : Option Line :=
  match s with
  | '(' :: rest =>
    if "ref-".toList.isPrefixOf (rest.takeWhile (fun c => c ≠ ')')) &&
        decide (4 < (rest.takeWhile (fun c => c ≠ ')')).length) &&
        (rest.drop (rest.takeWhile (fun c => c ≠ ')')).length == [')', '='] ||
          rest.drop (rest.takeWhile (fun c => c ≠ ')')).length == [')', '=', '\n']) then
      some (rest.takeWhile (fun c => c ≠ ')'))
    else none
  | _ => none

/-- The scanning loop of `find_target_in_file` (`convert_links.py` lines
65-92).  `anchor` is the heading anchor, the empty list when falsy; `prev`
holds the previous line.  When a heading matches, the loop either returns the
`ref-` target found on the previous line or `break`s, after which the
function returns `None`; both outcomes equal `refTargetId` of the stripped
previous line. -/
def find_loop (anchor : Line) : Line → List Line → Option Line
  | _, [] => none
  | prev, l :: rest =>
    if anchor = [] then
      match matchH1 l with
      | some _ => refTargetId (pyStrip prev)
      | none => find_loop anchor l rest
    else
      match matchHeading l with
      | some m =>
        if normalize_heading_to_anchor (pyStrip m.2) = anchor then refTargetId (pyStrip prev)
        else find_loop anchor l rest
      | none => find_loop anchor l rest

/-- The file-scanning part of `find_target_in_file` (`convert_links.py` lines
61-92), given the lines read from the target file. -/
def find_target_lines (lines : List Line) (anchor : Line) : Option Line :=
  find_loop anchor [] lines

/-- The mutable dict `cache` threaded through `convert_links.py`, as an
association list: assignment prepends, lookup returns the most recent
binding. -/
abbrev Cache := List ((Line × Line) × Option Line)

/-- Lookup in the cache (`cache_key in cache` / `cache[cache_key]`). -/
def assocLookup : Cache → Line × Line → Option (Option Line)
  | [], _ => none
  | (k, v) :: rest, key => if k = key then some v else assocLookup rest key

/-- The cache key of `find_target_in_file` (`convert_links.py` line 42): the
absolute path paired with the anchor, or with the sentinel `"__FIRST_H1__"`
when the anchor is falsy (absent or empty). -/
def cacheKey (absPath anchor : Line) : Line × Line :=
  (absPath, if anchor = [] then "__FIRST_H1__".toList else anchor)

/-- `find_target_in_file` (`convert_links.py` lines 26-92).  `abspath` models
`os.path.abspath`; `fs` models the filesystem, `none` standing for a path
where `os.path.exists` is false (or the read raises), otherwise the file's
lines.  Returns the result together with the updated cache. -/
def find_target_in_file (abspath : Line → Line) (fs : Line → Option (List Line))
    (path anchor : Line) (cache : Cache) : Option Line × Cache :=
  let key := cacheKey (abspath path) anchor
  match assocLookup cache key with
  | some v => (v, cache)
  | none =>
    match fs (abspath path) with
    | none => (none, (key, none) :: cache)
    | some ls =>
      let r := find_target_lines ls anchor
      (r, (key, r) :: cache)

/-- Result of `urllib.parse.urlparse`, restricted to the three fields the
script reads. -/
structure Parsed where
  scheme : Line
  path : Line
  fragment : Line

/-- Characters allowed in a URL scheme. -/
def isSchemeChar (c : Char) : Bool := c.isAlpha || c.isDigit || c = '+' || c = '-' || c = '.'

/-- Is the first character a letter? -/
def headIsAlpha : Line → Bool
  | [] => false
  | c :: _ => c.isAlpha

/-- Model of `urllib.parse.urlparse` for the fields used by
`replace_link_match`: the fragment is everything after the first `#`; a
scheme is a non-empty letter-initial run of scheme characters terminated by a
`:`; the remainder is taken as the path (network locations, parameters and
query strings are not split off — the script's destinations are plain
relative paths with optional fragments, and a destination with a scheme is
returned unchanged before its path is ever used). -/
def parseUrl (dest : Line) : Parsed :=
  let before := dest.takeWhile (fun c => c ≠ '#')
  let frag := (dest.dropWhile (fun c => c ≠ '#')).drop 1
  let pre := before.takeWhile (fun c => c ≠ ':')
  if decide (pre.length < before.length) && !pre.isEmpty && pre.all isSchemeChar &&
      headIsAlpha pre then
    ⟨pre.map Char.toLower, before.drop (pre.length + 1), frag⟩
  else ⟨[], before, frag⟩

/-- POSIX `os.path.join` for the two-argument calls of the script. -/
def joinPath (a b : Line) : Line :=
  if b.head? = some '/' then b
  else if a = [] then b
  else if a.getLast? = some '/' then a ++ b
  else a ++ '/' :: b

/-- `link_path.lstrip('/\\')` (`convert_links.py` line 134). -/
def lstripSlashes (l : Line) : Line := l.dropWhile (fun c => c = '/' || c = '\\')

/-- `base_path.lower().endswith('.md')` (`convert_links.py` line 140). -/
def endsWithMd (l : Line) : Bool := (l.map Char.toLower).reverse.take 3 == ['d', 'm', '.']

/-- The path-resolution block of `replace_link_match` (`convert_links.py`
lines 130-147): join the link path to the documentation root (when it starts
with `/`) or to the current document's directory, append `.md` when missing,
then `os.path.normpath` (modelled by the parameter `normp`). -/
def resolve_destination (normp : Line → Line) (root_dir source_dir : Line) (p : Parsed) : Line :=
  let base :=
    if p.path.head? = some '/' then joinPath root_dir (lstripSlashes p.path)
    else joinPath source_dir p.path
  normp (if endsWithMd base then base else base ++ ".md".toList)

/-- `replace_link_match` (`convert_links.py` lines 115-159) for one matched
link `[link_text](destination)`.  The function is total — resolution failure
is a value, never an exception.  Returns the replacement text (the original
match when no substitution happens), the updated cache, and whether the
"No target found" diagnostic was printed. -/
def replace_link_match (abspath normp : Line → Line) (fs : Line → Option (List Line))
    (root_dir source_dir : Line) (link_text destination : Line) (cache : Cache) :
    Line × Cache × Bool :=
  let orig := ('[' :: link_text) ++ (']' :: '(' :: (destination ++ [')']))
  let p := parseUrl destination
  if p.scheme ≠ [] then (orig, cache, false)
  else if p.path = [] then (orig, cache, false)
  else
    let tf := resolve_destination normp root_dir source_dir p
    let r := find_target_in_file abspath fs tf p.fragment cache
    match r.1 with
    | some lbl => (("{ref}".toList ++ "`".toList) ++ lbl ++ "`".toList, r.2, false)
    | none => (orig, r.2, true)

end ConvertLinks

/-- Does the line match the heading regex with (resolver-)normalized stripped
text equal to `anchor`?  This is the per-line condition tested by the
fragment branch of the resolver's scanning loop. -/
def headingAnchorIs (anchor l : Line) : Bool :=
  match matchHeading l with
  | some m => ConvertLinks.normalize_heading_to_anchor (pyStrip m.2) == anchor
  | none => false

/-! Helper lemmas about the scanning loops and the label patterns. -/

lemma takeWhile_ne_rparen_cons {c : Char} (hc : c ≠ ')') (l : Line) :
    (c :: l).takeWhile (fun x => x ≠ ')') = c :: l.takeWhile (fun x => x ≠ ')') :=
  List.takeWhile_cons_of_pos (by simp [hc])

/-- A successful `target_pattern` match implies a successful
`existing_target_pattern` match: every `(ref-...)=` line is a generic
`(...)=` line. -/
lemma isLabelLine_of_refTargetId {s id : Line}
    (h : ConvertLinks.refTargetId s = some id) : AddTargets.isLabelLine s = true := by
  unfold ConvertLinks.refTargetId at h
  split at h
  next rest =>
    simp only [AddTargets.isLabelLine]
    split at h
    next hcond =>
      simp only [Bool.and_eq_true] at hcond
      have hlen : 4 < (rest.takeWhile (fun c => decide (c ≠ ')'))).length :=
        of_decide_eq_true hcond.1.2
      generalize hg : rest.takeWhile (fun c => decide (c ≠ ')')) = mid at hlen hcond ⊢
      rcases mid with _ | ⟨a, as⟩
      · simp at hlen
      · simpa using hcond.2
    next => simp at h
  next => simp at h

/-- Contrapositive form: a line that is not a generic label line yields no
`ref-` target either. -/
lemma refTargetId_none_of_not_label {s : Line}
    (h : AddTargets.isLabelLine s = false) : ConvertLinks.refTargetId s = none := by
  rcases hr : ConvertLinks.refTargetId s with _ | id
  · rfl
  · rw [isLabelLine_of_refTargetId hr] at h
    cases h

/-- Scanning lines none of which is a heading matching the fragment just
moves the previous-line variable to the last of them. -/
lemma find_loop_skip_frag (anchor : Line) (ha : anchor ≠ []) :
    ∀ (pre : List Line) (prev : Line) (post : List Line),
      (∀ x ∈ pre, headingAnchorIs anchor x = false) →
      ConvertLinks.find_loop anchor prev (pre ++ post)
        = ConvertLinks.find_loop anchor (lastD prev pre) post := by
  intro pre
  induction pre with
  | nil => intro prev post _; rfl
  | cons x xs ih =>
    intro prev post hall
    have hx := hall x (List.mem_cons_self x xs)
    have hxs : ∀ y ∈ xs, headingAnchorIs anchor y = false :=
      fun y hy => hall y (List.mem_cons_of_mem x hy)
    rcases hm : matchHeading x with _ | m
    · show ConvertLinks.find_loop anchor prev (x :: (xs ++ post)) = _
      simp only [ConvertLinks.find_loop, if_neg ha, hm, lastD]
      exact ih x post hxs
    · have hn : ¬ (ConvertLinks.normalize_heading_to_anchor (pyStrip m.2) = anchor) := by
        intro he
        simp [headingAnchorIs, hm, he] at hx
      show ConvertLinks.find_loop anchor prev (x :: (xs ++ post)) = _
      simp only [ConvertLinks.find_loop, if_neg ha, hm, if_neg hn, lastD]
      exact ih x post hxs

/-- Scanning lines none of which is a level-one heading, in the no-fragment
mode, just moves the previous-line variable to the last of them. -/
lemma find_loop_skip_h1 :
    ∀ (pre : List Line) (prev : Line) (post : List Line),
      (∀ x ∈ pre, ConvertLinks.matchH1 x = none) →
      ConvertLinks.find_loop [] prev (pre ++ post)
        = ConvertLinks.find_loop [] (lastD prev pre) post := by
  intro pre
  induction pre with
  | nil => intro prev post _; rfl
  | cons x xs ih =>
    intro prev post hall
    have hx := hall x (List.mem_cons_self x xs)
    have hxs : ∀ y ∈ xs, ConvertLinks.matchH1 y = none :=
      fun y hy => hall y (List.mem_cons_of_mem x hy)
    show ConvertLinks.find_loop [] prev (x :: (xs ++ post)) = _
    simp only [ConvertLinks.find_loop, if_pos rfl, hx, lastD]
    exact ih x post hxs

/-- The two copies of the `[\s_]+` collapsing step agree. -/
lemma subWsRuns_eq (b : Bool) (l : Line) :
    AddTargets.subWsRuns b l = ConvertLinks.subWsRuns b l := by
  induction l generalizing b with
  | nil => rfl
  | cons c rest ih =>
    by_cases h : isWsUnderscore c = true
    · cases b <;> simp [AddTargets.subWsRuns, ConvertLinks.subWsRuns, h, ih]
    · cases b <;> simp [AddTargets.subWsRuns, ConvertLinks.subWsRuns, h, ih]

/-! The claims. -/

/-- C1: Round-trip of annotation and resolution: annotating `guide.md`
containing the heading `## My Section` inserts `(ref-guide-my-section)=`
immediately above it, the fragment of the destination `guide.md#my-section`
parses to `my-section`, and resolving that fragment against the annotated
document returns `ref-guide-my-section`. -/
theorem claim_C1_roundtrip :
    (AddTargets.annotate "guide".toList ["## My Section\n".toList]).1 =
      ["(ref-guide-my-section)=\n".toList, "## My Section\n".toList] ∧
    (ConvertLinks.parseUrl "guide.md#my-section".toList).fragment = "my-section".toList ∧
    ConvertLinks.find_target_lines
        ["(ref-guide-my-section)=\n".toList, "## My Section\n".toList]
        "my-section".toList = some "ref-guide-my-section".toList := by decide

/-- C2: Stop-on-unlabeled-match: if the first heading (at any level) whose
normalized text equals the fragment is not immediately preceded by a label
line (the generic `(...)=` form), the resolver returns `none`, regardless of
what follows — in particular it never falls through to a later labelled
duplicate in `post`. -/
theorem claim_C2_stop_on_unlabeled_match (anchor : Line) (pre : List Line) (l : Line)
    (post : List Line) (ha : anchor ≠ [])
    (hpre : ∀ x ∈ pre, headingAnchorIs anchor x = false)
    (hl : headingAnchorIs anchor l = true)
    (hprev : AddTargets.isLabelLine (pyStrip (lastD [] pre)) = false) :
    ConvertLinks.find_target_lines (pre ++ l :: post) anchor = none := by
  unfold ConvertLinks.find_target_lines
  rw [find_loop_skip_frag anchor ha pre [] (l :: post) hpre]
  rcases hm : matchHeading l with _ | m
  · simp [headingAnchorIs, hm] at hl
  · have hn : ConvertLinks.normalize_heading_to_anchor (pyStrip m.2) = anchor := by
      have := hl
      simp only [headingAnchorIs, hm] at this
      exact eq_of_beq this
    have hz := refTargetId_none_of_not_label hprev
    simp only [ConvertLinks.find_loop, if_neg ha, hm, if_pos hn]
    exact hz

/-- C2 witness: a document with an unlabeled `## Dup` followed by a labelled
`## Dup`; resolving fragment `dup` fails. -/
theorem claim_C2_witness :
    ConvertLinks.find_target_lines
        ["intro\n".toList, "## Dup\n".toList, "x\n".toList, "(ref-f-dup)=\n".toList,
          "## Dup\n".toList] "dup".toList = none :=
  claim_C2_stop_on_unlabeled_match "dup".toList ["intro\n".toList] "## Dup\n".toList
    ["x\n".toList, "(ref-f-dup)=\n".toList, "## Dup\n".toList] (by decide) (by decide)
    (by decide) (by decide)

/-- C3 counterexample: `(mylabel)=` is a line of the exact label form
`(` + identifier + `)=` with no close-paren in the identifier, it immediately
precedes the first heading whose normalized text equals the fragment `top`,
yet the resolver returns `none` rather than `mylabel` — the claim's "for any
such identifier, not only identifiers beginning with `ref-`" is false. -/
theorem claim_C3_counterexample :
    AddTargets.isLabelLine (pyStrip "(mylabel)=\n".toList) = true ∧
    headingAnchorIs "top".toList "# Top\n".toList = true ∧
    ConvertLinks.find_target_lines ["(mylabel)=\n".toList, "# Top\n".toList] "top".toList
      = none := by decide

/-- C3 amended: when the first heading matching the fragment is immediately
preceded by a line that matches the resolver's `(ref-...)=` pattern — an
identifier that begins with `ref-` and contains no close-paren — the resolver
returns that identifier.  Labels whose identifier does not begin with `ref-`
are not recognized (see the counterexample). -/
theorem claim_C3_amended_ref_only_labels (anchor : Line) (pre : List Line) (l : Line)
    (post : List Line) (id : Line) (ha : anchor ≠ [])
    (hpre : ∀ x ∈ pre, headingAnchorIs anchor x = false)
    (hl : headingAnchorIs anchor l = true)
    (hprev : ConvertLinks.refTargetId (pyStrip (lastD [] pre)) = some id) :
    ConvertLinks.find_target_lines (pre ++ l :: post) anchor = some id := by
  unfold ConvertLinks.find_target_lines
  rw [find_loop_skip_frag anchor ha pre [] (l :: post) hpre]
  rcases hm : matchHeading l with _ | m
  · simp [headingAnchorIs, hm] at hl
  · have hn : ConvertLinks.normalize_heading_to_anchor (pyStrip m.2) = anchor := by
      have := hl
      simp only [headingAnchorIs, hm] at this
      exact eq_of_beq this
    simp only [ConvertLinks.find_loop, if_neg ha, hm, if_pos hn]
    exact hprev

/-- C3 witness: a `ref-` label above the matching heading is returned. -/
theorem claim_C3_witness :
    ConvertLinks.find_target_lines
        ["(ref-g-top)=\n".toList, "# Top\n".toList] "top".toList
      = some "ref-g-top".toList :=
  claim_C3_amended_ref_only_labels "top".toList ["(ref-g-top)=\n".toList] "# Top\n".toList
    [] "ref-g-top".toList (by decide) (by decide) (by decide) (by decide)

/-- C5: Normalization agreement: the Label Generator's normalization pipeline
and the Anchor Resolver's independently implemented fragment normalization
produce the identical string on every input. -/
theorem claim_C5_normalization_agreement (text : Line) :
    AddTargets.processed_heading text = ConvertLinks.normalize_heading_to_anchor text := by
  unfold AddTargets.processed_heading ConvertLinks.normalize_heading_to_anchor
  rw [subWsRuns_eq]
  rfl

/-- C6 counterexample: `(intro)=` is a label line (the generic form the data
model defines) immediately above the first level-one heading, yet the
no-fragment resolution returns `none` rather than `intro`, because the
resolver only recognizes identifiers beginning with `ref-`. -/
theorem claim_C6_counterexample :
    AddTargets.isLabelLine (pyStrip "(intro)=\n".toList) = true ∧
    (ConvertLinks.matchH1 "# Welcome\n".toList).isSome = true ∧
    ConvertLinks.find_target_lines ["(intro)=\n".toList, "# Welcome\n".toList] []
      = none := by decide

/-- C6 amended: resolving with no fragment returns exactly the result of the
resolver's `(ref-...)=` pattern on the line immediately above the first
level-one heading (one `#` marker exactly): the `ref-` identifier when that
line matches, `none` otherwise; lines before it that are not level-one
headings — including deeper-level headings — are ignored. -/
theorem claim_C6_amended_first_h1 (pre : List Line) (l : Line) (post : List Line)
    (hpre : ∀ x ∈ pre, ConvertLinks.matchH1 x = none)
    (hl : (ConvertLinks.matchH1 l).isSome = true) :
    ConvertLinks.find_target_lines (pre ++ l :: post) [] =
      ConvertLinks.refTargetId (pyStrip (lastD [] pre)) := by
  unfold ConvertLinks.find_target_lines
  rw [find_loop_skip_h1 pre [] (l :: post) hpre]
  rcases hm : ConvertLinks.matchH1 l with _ | g
  · rw [hm] at hl
    cases hl
  · simp [ConvertLinks.find_loop, hm]

/-- C6 witness: a deeper heading before the first level-one heading is
ignored, and the `ref-` label above the level-one heading is returned. -/
theorem claim_C6_witness :
    ConvertLinks.find_target_lines
        ["## deep\n".toList, "(ref-g-top)=\n".toList, "# Top\n".toList] []
      = some "ref-g-top".toList :=
  (claim_C6_amended_first_h1 ["## deep\n".toList, "(ref-g-top)=\n".toList]
    "# Top\n".toList [] (by decide) (by decide)).trans (by decide)

/-- C7: Resolver caching: the cache key is the absolute target path paired
with the fragment or the `__FIRST_H1__` sentinel; a present key — including a
cached `none` — is returned as-is without touching the filesystem and without
changing the cache; a missing file stores and returns `none`; and after every
call the cache maps the key to the returned value. -/
theorem claim_C7_resolver_caching (abspath : Line → Line) (fs : Line → Option (List Line))
    (path anchor : Line) (cache : ConvertLinks.Cache) :
    (∀ v, ConvertLinks.assocLookup cache (ConvertLinks.cacheKey (abspath path) anchor) = some v →
        ConvertLinks.find_target_in_file abspath fs path anchor cache = (v, cache)) ∧
    (ConvertLinks.assocLookup cache (ConvertLinks.cacheKey (abspath path) anchor) = none →
        fs (abspath path) = none →
        ConvertLinks.find_target_in_file abspath fs path anchor cache =
          (none, (ConvertLinks.cacheKey (abspath path) anchor, none) :: cache)) ∧
    ConvertLinks.assocLookup (ConvertLinks.find_target_in_file abspath fs path anchor cache).2
        (ConvertLinks.cacheKey (abspath path) anchor) =
      some (ConvertLinks.find_target_in_file abspath fs path anchor cache).1 := by
  refine ⟨?_, ?_, ?_⟩
  · intro v hv
    simp [ConvertLinks.find_target_in_file, hv]
  · intro h1 h2
    simp [ConvertLinks.find_target_in_file, h1, h2]
  · rcases hv : ConvertLinks.assocLookup cache
        (ConvertLinks.cacheKey (abspath path) anchor) with _ | v
    · rcases hf : fs (abspath path) with _ | ls
      · simp [ConvertLinks.find_target_in_file, hv, hf, ConvertLinks.assocLookup]
      · simp [ConvertLinks.find_target_in_file, hv, hf, ConvertLinks.assocLookup]
    · simp [ConvertLinks.find_target_in_file, hv]

/-- C7 witness: a cached value for the sentinel key is returned unchanged,
with the cache untouched, on a filesystem where no file exists. -/
theorem claim_C7_witness :
    ConvertLinks.find_target_in_file (fun s => s) (fun _ => none) "a.md".toList []
        [(("a.md".toList, "__FIRST_H1__".toList), some "ref-x".toList)]
      = (some "ref-x".toList,
          [(("a.md".toList, "__FIRST_H1__".toList), some "ref-x".toList)]) :=
  (claim_C7_resolver_caching (fun s => s) (fun _ => none) "a.md".toList []
    [(("a.md".toList, "__FIRST_H1__".toList), some "ref-x".toList)]).1
    (some "ref-x".toList) (by decide)

/-! Machinery for the annotator: equation lemmas for its loop, and facts
about the generated label line. -/

/-- Unfolding `go` at a non-heading line. -/
lemma go_cons_nonheading (stem prev l : Line) (rest : List Line)
    (hm : matchHeading l = none) :
    AddTargets.go stem prev (l :: rest)
      = (l :: (AddTargets.go stem l rest).1, (AddTargets.go stem l rest).2) := by
  simp [AddTargets.go, hm]

/-- Unfolding `go` at a heading line whose previous line is a label. -/
lemma go_cons_labeled (stem prev l : Line) (rest : List Line) (m : Nat × Line)
    (hm : matchHeading l = some m) (hp : AddTargets.isLabelLine (pyStrip prev) = true) :
    AddTargets.go stem prev (l :: rest)
      = (l :: (AddTargets.go stem l rest).1, (AddTargets.go stem l rest).2) := by
  simp [AddTargets.go, hm, hp]

/-- Unfolding `go` at a heading line whose previous line is not a label: a
fresh label line is inserted and the modified flag is set. -/
lemma go_cons_insert (stem prev l : Line) (rest : List Line) (m : Nat × Line)
    (hm : matchHeading l = some m) (hp : AddTargets.isLabelLine (pyStrip prev) = false) :
    AddTargets.go stem prev (l :: rest)
      = ((AddTargets.generate_target_label stem (pyStrip m.2) ++ ['\n'])
          :: l :: (AddTargets.go stem l rest).1, true) := by
  simp [AddTargets.go, hm, hp]

/-- `takeWhile` of non-`)` characters runs exactly up to an appended `)`. -/
lemma takeWhile_append_rparen (core tail : Line) (h : ∀ c ∈ core, c ≠ ')') :
    (core ++ ')' :: tail).takeWhile (fun x => x ≠ ')') = core := by
  induction core with
  | nil => exact List.takeWhile_cons_of_neg (by decide)
  | cons c cs ih =>
    rw [List.cons_append, takeWhile_ne_rparen_cons (h c (List.mem_cons_self c cs)),
      ih (fun d hd => h d (List.mem_cons_of_mem c hd))]

/-- Every character surviving the normalization pipeline is in `[a-z0-9-]`. -/
lemma mem_processed_allowed (t : Line) {c : Char}
    (hc : c ∈ AddTargets.processed_heading t) : isAllowedChar c = true := by
  unfold AddTargets.processed_heading AddTargets.stripHyphens AddTargets.removeDisallowed at hc
  rw [List.mem_reverse] at hc
  have hc2 := (List.dropWhile_sublist _).subset hc
  rw [List.mem_reverse] at hc2
  have hc3 := (List.dropWhile_sublist _).subset hc2
  exact (List.mem_filter.mp hc3).2

/-- When the stem contains no close-paren, no character of the generated
label's identifier is a close-paren. -/
lemma generate_core_no_rparen (stem t : Line) (h : ')' ∉ stem) :
    ∀ c ∈ ('r' :: 'e' :: 'f' :: '-' :: (stem ++ '-' :: AddTargets.processed_heading t)),
      c ≠ ')' := by
  intro c hc
  simp only [List.mem_cons, List.mem_append] at hc
  rcases hc with rfl | rfl | rfl | rfl | hc | hc
  · decide
  · decide
  · decide
  · decide
  · exact fun he => h (he ▸ hc)
  · rcases hc with rfl | hc
    · decide
    · intro he
      have := mem_processed_allowed t hc
      rw [he] at this
      exact absurd this (by decide)

/-- When the stem contains no close-paren, the generated label line matches
the annotator's `existing_target_pattern`. -/
lemma isLabelLine_generate (stem t : Line) (h : ')' ∉ stem) :
    AddTargets.isLabelLine (AddTargets.generate_target_label stem t) = true := by
  have hshape : AddTargets.generate_target_label stem t
      = '(' :: (('r' :: 'e' :: 'f' :: '-' :: (stem ++ '-' :: AddTargets.processed_heading t))
          ++ ')' :: ['=']) := by
    unfold AddTargets.generate_target_label
    simp
  rw [hshape]
  simp only [AddTargets.isLabelLine]
  rw [takeWhile_append_rparen _ _ (generate_core_no_rparen stem t h)]
  simp only [List.drop_left]
  simp

/-- Stripping the generated label line (with its newline) gives back the
label text: it starts with `(` and ends with `=`. -/
lemma pyStrip_generate (stem t : Line) :
    pyStrip (AddTargets.generate_target_label stem t ++ ['\n'])
      = AddTargets.generate_target_label stem t := by
  unfold AddTargets.generate_target_label pyStrip
  simp only [List.cons_append, List.append_assoc, List.nil_append]
  rw [List.dropWhile_cons_of_neg (by decide)]
  simp only [List.reverse_cons, List.reverse_append, List.reverse_nil, List.nil_append,
    List.append_assoc, List.cons_append]
  rw [List.dropWhile_cons_of_pos (by decide), List.dropWhile_cons_of_neg (by decide)]
  simp [List.reverse_append]

/-- The generated label line is not itself a heading. -/
lemma matchHeading_generate_none (stem t : Line) :
    matchHeading (AddTargets.generate_target_label stem t ++ ['\n']) = none := by
  unfold AddTargets.generate_target_label
  simp only [List.cons_append]
  simp only [matchHeading]
  rw [List.takeWhile_cons_of_neg (by decide)]
  simp

/-- Re-running the annotator's loop on its own output changes nothing, for a
stem with no close-paren. -/
lemma go_idem (stem : Line) (hstem : ')' ∉ stem) :
    ∀ (lines : List Line) (prev : Line),
      AddTargets.go stem prev ((AddTargets.go stem prev lines).1)
        = ((AddTargets.go stem prev lines).1, false) := by
  intro lines
  induction lines with
  | nil => intro prev; rfl
  | cons l rest ih =>
    intro prev
    rcases hm : matchHeading l with _ | m
    · rw [go_cons_nonheading stem prev l rest hm]
      rw [go_cons_nonheading stem prev l ((AddTargets.go stem l rest).1) hm]
      rw [ih l]
    · cases hp : AddTargets.isLabelLine (pyStrip prev) with
      | true =>
        rw [go_cons_labeled stem prev l rest m hm hp]
        rw [go_cons_labeled stem prev l ((AddTargets.go stem l rest).1) m hm hp]
        rw [ih l]
      | false =>
        rw [go_cons_insert stem prev l rest m hm hp]
        rw [go_cons_nonheading stem prev
          (AddTargets.generate_target_label stem (pyStrip m.2) ++ ['\n'])
          (l :: (AddTargets.go stem l rest).1) (matchHeading_generate_none stem (pyStrip m.2))]
        have hlbl : AddTargets.isLabelLine
            (pyStrip (AddTargets.generate_target_label stem (pyStrip m.2) ++ ['\n'])) = true := by
          rw [pyStrip_generate]
          exact isLabelLine_generate stem (pyStrip m.2) hstem
        rw [go_cons_labeled stem _ l ((AddTargets.go stem l rest).1) m hm hlbl]
        rw [ih l]

/-- C4 counterexample: for the document `# T` in a file with stem `a)` (a
close-paren in the filename stem), the label inserted by the first run,
`(ref-a)-t)=`, does not match `existing_target_pattern`, so the second run
inserts a duplicate and reports a modification: annotation is not idempotent
for every document. -/
theorem claim_C4_counterexample :
    AddTargets.annotate "a)".toList ((AddTargets.annotate "a)".toList ["# T\n".toList]).1)
      ≠ ((AddTargets.annotate "a)".toList ["# T\n".toList]).1, false) := by decide

/-- C4 amended: for every document whose filename stem contains no
close-paren, annotating the output of annotation yields that output unchanged
and reports no modification — a heading already immediately preceded by a
label line never receives a second inserted label. -/
theorem claim_C4_amended_idempotence (stem : Line) (lines : List Line)
    (hstem : ')' ∉ stem) :
    AddTargets.annotate stem ((AddTargets.annotate stem lines).1)
      = ((AddTargets.annotate stem lines).1, false) :=
  go_idem stem hstem lines []

/-- C4 witness: idempotence on a concrete document with stem `g`. -/
theorem claim_C4_witness :
    AddTargets.annotate "g".toList ((AddTargets.annotate "g".toList ["# A\n".toList]).1)
      = ((AddTargets.annotate "g".toList ["# A\n".toList]).1, false) :=
  claim_C4_amended_idempotence "g".toList ["# A\n".toList] (by decide)

/-- The annotator's loop distributes over appending, threading the
previous-line variable and or-ing the modified flags. -/
lemma go_append (stem : Line) :
    ∀ (xs : List Line) (prev : Line) (ys : List Line),
      AddTargets.go stem prev (xs ++ ys)
        = ((AddTargets.go stem prev xs).1 ++ (AddTargets.go stem (lastD prev xs) ys).1,
            ((AddTargets.go stem prev xs).2 || (AddTargets.go stem (lastD prev xs) ys).2)) := by
  intro xs
  induction xs with
  | nil => intro prev ys; simp [AddTargets.go, lastD]
  | cons l xs ih =>
    intro prev ys
    rcases hm : matchHeading l with _ | m
    · rw [show (l :: xs) ++ ys = l :: (xs ++ ys) from rfl,
        go_cons_nonheading stem prev l (xs ++ ys) hm,
        go_cons_nonheading stem prev l xs hm, ih l ys]
      simp [lastD]
    · cases hp : AddTargets.isLabelLine (pyStrip prev) with
      | true =>
        rw [show (l :: xs) ++ ys = l :: (xs ++ ys) from rfl,
          go_cons_labeled stem prev l (xs ++ ys) m hm hp,
          go_cons_labeled stem prev l xs m hm hp, ih l ys]
        simp [lastD]
      | false =>
        rw [show (l :: xs) ++ ys = l :: (xs ++ ys) from rfl,
          go_cons_insert stem prev l (xs ++ ys) m hm hp,
          go_cons_insert stem prev l xs m hm hp, ih l ys]
        simp [lastD]

/-- C10: the Heading Annotator is context-free: a `# comment` line inside a
fenced code block is classified as a heading like any other, so for every
document containing the fenced block ```` ```bash / # comment / ``` ```` —
whatever comes before or after — the annotator inserts a generated label line
immediately above the `# comment` line. -/
theorem claim_C10_code_fence_heading (stem : Line) (pre post : List Line) :
    (AddTargets.annotate stem
        (pre ++ ["```bash\n".toList, "# comment\n".toList, "```\n".toList] ++ post)).1
      = (AddTargets.go stem [] pre).1
        ++ ["```bash\n".toList,
            AddTargets.generate_target_label stem "comment".toList ++ ['\n'],
            "# comment\n".toList, "```\n".toList]
        ++ (AddTargets.go stem "```\n".toList post).1 := by
  have hmid : ∀ P : Line,
      AddTargets.go stem P ["```bash\n".toList, "# comment\n".toList, "```\n".toList]
        = (["```bash\n".toList,
            AddTargets.generate_target_label stem "comment".toList ++ ['\n'],
            "# comment\n".toList, "```\n".toList], true) := by
    intro P
    rw [go_cons_nonheading stem P _ _ (by decide)]
    rw [go_cons_insert stem _ _ _ (1, "comment".toList) (by decide) (by decide)]
    rw [go_cons_nonheading stem _ _ _ (by decide)]
    rw [show pyStrip "comment".toList = "comment".toList from by decide]
    rfl
  unfold AddTargets.annotate
  rw [List.append_assoc,
    go_append stem pre []
      (["```bash\n".toList, "# comment\n".toList, "```\n".toList] ++ post),
    go_append stem ["```bash\n".toList, "# comment\n".toList, "```\n".toList]
      (lastD [] pre) post,
    hmid (lastD [] pre)]
  simp [lastD]

/-- Does `needle` occur as a contiguous substring of `hay`? -/
def hasSub (hay needle : Line) : Bool :=
  match hay with
  | [] => needle.isEmpty
  | _ :: t => needle.isPrefixOf hay || hasSub t needle

/-- C8: Missing-target negative case: for every internal link (no scheme,
non-empty path) whose resolved destination does not exist on the filesystem —
and whose cache, as in any real run over that filesystem, holds no positive
entry for it — the Link Rewriter returns the original link text `[text](dest)`
unchanged and emits the "No target found" diagnostic.  The rewriter is a
total function: resolution failure is a value, never an exception. -/
theorem claim_C8_missing_target (abspath normp : Line → Line)
    (fs : Line → Option (List Line)) (root_dir source_dir : Line)
    (link_text destination : Line) (cache : ConvertLinks.Cache) (tf : Line)
    (htf : tf = ConvertLinks.resolve_destination normp root_dir source_dir
      (ConvertLinks.parseUrl destination))
    (h1 : (ConvertLinks.parseUrl destination).scheme = [])
    (h2 : (ConvertLinks.parseUrl destination).path ≠ [])
    (h3 : fs (abspath tf) = none)
    (h4 : ∀ l, ConvertLinks.assocLookup cache
      (ConvertLinks.cacheKey (abspath tf) (ConvertLinks.parseUrl destination).fragment)
        ≠ some (some l)) :
    (ConvertLinks.replace_link_match abspath normp fs root_dir source_dir
        link_text destination cache).1
      = ('[' :: link_text) ++ (']' :: '(' :: (destination ++ [')'])) ∧
    (ConvertLinks.replace_link_match abspath normp fs root_dir source_dir
        link_text destination cache).2.2 = true := by
  have hr : (ConvertLinks.find_target_in_file abspath fs tf
      (ConvertLinks.parseUrl destination).fragment cache).1 = none := by
    unfold ConvertLinks.find_target_in_file
    rcases hv : ConvertLinks.assocLookup cache
        (ConvertLinks.cacheKey (abspath tf)
          (ConvertLinks.parseUrl destination).fragment) with _ | v
    · simp [hv, h3]
    · rcases v with _ | l
      · simp [hv]
      · exact absurd hv (h4 l)
  subst htf
  have hs : ¬ ((ConvertLinks.parseUrl destination).scheme ≠ []) := fun hne => hne h1
  constructor
  · simp only [ConvertLinks.replace_link_match, if_neg hs, if_neg h2, hr]
  · simp only [ConvertLinks.replace_link_match, if_neg hs, if_neg h2, hr]

/-- C8 witness: a link `[t](missing.md)` from `/docs/sub` on an empty
filesystem is kept verbatim and the diagnostic is emitted. -/
theorem claim_C8_witness :
    (ConvertLinks.replace_link_match (fun s => s) (fun s => s) (fun _ => none)
        "/docs".toList "/docs/sub".toList "t".toList "missing.md".toList []).1
      = "[t](missing.md)".toList ∧
    (ConvertLinks.replace_link_match (fun s => s) (fun s => s) (fun _ => none)
        "/docs".toList "/docs/sub".toList "t".toList "missing.md".toList []).2.2 = true := by
  have h := claim_C8_missing_target (fun s => s) (fun s => s) (fun _ => none)
    "/docs".toList "/docs/sub".toList "t".toList "missing.md".toList []
    "/docs/sub/missing.md".toList (by decide) (by decide) (by decide) rfl
    (fun l hl => Option.noConfusion hl)
  exact ⟨h.1.trans (by decide), h.2⟩

/-- C9 counterexample: the Link Rewriter takes no preserve-display-text mode;
on a resolved link with display text `Click here` the substituted token is
the bare `{ref}` form and does not carry the display text anywhere. -/
theorem claim_C9_counterexample :
    (ConvertLinks.replace_link_match (fun s => s) (fun s => s)
        (fun p => if p = "guide.md".toList then
          some ["(ref-guide-my-section)=\n".toList, "## My Section\n".toList] else none)
        [] [] "Click here".toList "guide.md#my-section".toList []).1
      = "{ref}`ref-guide-my-section`".toList ∧
    hasSub (ConvertLinks.replace_link_match (fun s => s) (fun s => s)
        (fun p => if p = "guide.md".toList then
          some ["(ref-guide-my-section)=\n".toList, "## My Section\n".toList] else none)
        [] [] "Click here".toList "guide.md#my-section".toList []).1 "Click here".toList
      = false := by decide

/-- C9 amended: the Link Rewriter has no boolean mode; whenever the Anchor
Resolver finds a label for an internal link, the substituted cross-reference
token is always the bare reference form, never carrying the original link
text. -/
theorem claim_C9_amended_bare_reference (abspath normp : Line → Line)
    (fs : Line → Option (List Line)) (root_dir source_dir : Line)
    (link_text destination : Line) (cache : ConvertLinks.Cache) (lbl : Line)
    (h1 : (ConvertLinks.parseUrl destination).scheme = [])
    (h2 : (ConvertLinks.parseUrl destination).path ≠ [])
    (h3 : (ConvertLinks.find_target_in_file abspath fs
        (ConvertLinks.resolve_destination normp root_dir source_dir
          (ConvertLinks.parseUrl destination))
        (ConvertLinks.parseUrl destination).fragment cache).1 = some lbl) :
    (ConvertLinks.replace_link_match abspath normp fs root_dir source_dir
        link_text destination cache).1
      = ("{ref}".toList ++ "`".toList) ++ lbl ++ "`".toList := by
  have hs : ¬ ((ConvertLinks.parseUrl destination).scheme ≠ []) := fun hne => hne h1
  simp only [ConvertLinks.replace_link_match, if_neg hs, if_neg h2, h3]

/-- C9 amended witness: the bare reference is produced on a concrete resolved
link. -/
theorem claim_C9_witness :
    (ConvertLinks.replace_link_match (fun s => s) (fun s => s)
        (fun p => if p = "guide.md".toList then
          some ["(ref-guide-my-section)=\n".toList, "## My Section\n".toList] else none)
        [] [] "see docs".toList "guide.md#my-section".toList []).1
      = "{ref}`ref-guide-my-section`".toList := by
  have h := claim_C9_amended_bare_reference (fun s => s) (fun s => s)
    (fun p => if p = "guide.md".toList then
      some ["(ref-guide-my-section)=\n".toList, "## My Section\n".toList] else none)
    [] [] "see docs".toList "guide.md#my-section".toList []
    "ref-guide-my-section".toList (by decide) (by decide) (by decide)
  exact h.trans (by decide)
